import Mathlib

/-!
Shallow embedding of the Game-of-Life core of the repository
(src/src/lib.rs and src/src/universe_builder.rs), together with theorems
settling the specification claims about it.

Machine integers (`usize`, `u8`) are embedded as `Nat`; the neighbor count is
at most 8 and all index arithmetic stays far below any word size, so no
wrap-around modelling is needed. Operations that can panic in the source
(indexing, zero-size chunking, the buffer-selector consistency checks) return
`Option`, with `none` standing for the panic/abort.
-/

namespace GameOfLife

/-- Cell enumeration from lib.rs: Dead = 0, Alive = 1. -/
inductive Cell where
  | Dead : Cell
  | Alive : Cell
deriving DecidableEq, Repr

/-- The numeric value of a cell, as in the source's `cell as u8` cast. -/
def Cell.toNat : Cell → Nat
  | Cell.Dead => 0
  | Cell.Alive => 1

/-- Cell.toggle from lib.rs: Dead ↔ Alive. -/
def Cell.toggle : Cell → Cell
  | Cell.Dead => Cell.Alive
  | Cell.Alive => Cell.Dead

/-- Size struct from lib.rs. -/
structure Size where
  width : Nat
  height : Nat
deriving DecidableEq, Repr

/-- Size::get_index from lib.rs: row-major linear index `row * width + column`. -/
def Size.get_index (s : Size) (row column : Nat) : Nat :=
  row * s.width + column

/-- Size::get_address from lib.rs: inverse translation by division/modulo. -/
def Size.get_address (s : Size) (index : Nat) : Nat × Nat :=
  (index / s.width, index % s.width)

/-- The Universe struct from lib.rs: a size, an active-buffer selector, and the
two generation buffers `cells: [Vec<Cell>; 2]`, embedded as two lists. -/
structure Universe where
  size : Size
  active : Nat
  cells0 : List Cell
  cells1 : List Cell
deriving DecidableEq, Repr

/-- The buffer stored at slot `i` of the two-element buffer array
(any `i` other than 0 can only be 1 in a well-formed grid). -/
def Universe.bufferAt (u : Universe) (i : Nat) : List Cell :=
  if i = 0 then u.cells0 else u.cells1

/-- Universe::get_cells from lib.rs: `&self.cells[self.active]`; indexing the
two-element array with a selector ≥ 2 panics, modelled as `none`. -/
def Universe.get_cells (u : Universe) : Option (List Cell) :=
  match u.active with
  | 0 => some u.cells0
  | 1 => some u.cells1
  | _ => none

/-- The list of 8 neighbor coordinates computed inside
Universe::live_neighbor_count in lib.rs: north/south/west/east are the
toroidally wrapped adjacent row/column values, and the 8 pairs are listed in
the source's order. -/
def neighbor_coordinates (size : Size) (row column : Nat) : List (Nat × Nat) :=
  let north := if row = 0 then size.height - 1 else row - 1
  let south := if row = size.height - 1 then 0 else row + 1
  let west := if column = 0 then size.width - 1 else column - 1
  let east := if column = size.width - 1 then 0 else column + 1
  [(north, west), (north, column), (north, east),
   (row, west), (row, east),
   (south, west), (south, column), (south, east)]

/-- Universe::live_neighbor_count from lib.rs: sums `cell as u8` over the 8
neighbor indices. The source reads the buffer with an unchecked access; the
embedding totalises it with a Dead default, and the in-bounds theorem for the
neighbor indices shows the default is never consulted for valid coordinates. -/
def Universe.live_neighbor_count (size : Size) (active_cells : List Cell)
    (row column : Nat) : Nat :=
  (neighbor_coordinates size row column).foldl
    (fun count rc =>
      count + (active_cells.getD (size.get_index rc.1 rc.2) Cell.Dead).toNat) 0

/-- The per-cell transition match from Universe::tick in lib.rs, with the arms
in source order: live cell with fewer than 2 neighbors dies; live cell with 2
or 3 lives on; live cell with more than 3 dies; dead cell with exactly 3
becomes alive; all other cells keep their state. -/
def next_cell (cell : Cell) (live_neighbors : Nat) : Cell :=
  if cell = Cell.Alive ∧ live_neighbors < 2 then Cell.Dead
  else if cell = Cell.Alive ∧ (live_neighbors = 2 ∨ live_neighbors = 3) then Cell.Alive
  else if cell = Cell.Alive ∧ live_neighbors > 3 then Cell.Dead
  else if cell = Cell.Dead ∧ live_neighbors = 3 then Cell.Alive
  else cell

/-- Writing `next[idx] = v`: a Vec index write, which panics (none) when the
index is out of range. -/
def setAt (l : List Cell) (i : Nat) (v : Cell) : Option (List Cell) :=
  if i < l.length then some (l.set i v) else none

/-- The `.iter().enumerate()` pairing used by the tick loop, generalised over
the starting index for the write-loop induction. -/
def enumerateFrom : Nat → List Cell → List (Nat × Cell)
  | _, [] => []
  | n, c :: cs => (n, c) :: enumerateFrom (n + 1) cs

/-- The generation write loop of Universe::tick in lib.rs. The source declares
`let mut row = 0usize; let mut col = 0usize;` before the loop and never
updates either inside it, so every iteration passes row = 0, col = 0 to
live_neighbor_count; the embedding reproduces that faithfully. Each iteration
computes the transition for the visited cell and writes it at the iteration
index into the idle buffer. -/
def tickWrites (size : Size) (active_cells : List Cell) :
    List (Nat × Cell) → List Cell → Option (List Cell)
  | [], next => some next
  | (idx, cell) :: rest, next =>
    let row := 0
    let col := 0
    let live_neighbors := Universe.live_neighbor_count size active_cells row col
    match setAt next idx (next_cell cell live_neighbors) with
    | none => none
    | some nxt => tickWrites size active_cells rest nxt

/-- The first statement of Universe::tick in lib.rs: choose the successor
buffer slot among the `cells.len() = 2` slots, aborting ("only one buffer is
available") when the selector is outside the array. -/
def ticknext_buffer (u : Universe) : Option Nat :=
  if u.active < 2 - 1 then some (u.active + 1)
  else if u.active = 2 - 1 then some 0
  else none

/-- Universe::tick from lib.rs: pick the successor buffer slot, split the
buffer pair into the active (read) buffer and the idle (write) buffer —
aborting when the selector is neither 0 nor 1 — run the write loop, and
finally install the successor slot as active. -/
def Universe.tick (u : Universe) : Option Universe := do
  let next_buffer ← ticknext_buffer u
  match u.active with
  | 0 => do
    let next ← tickWrites u.size u.cells0 (enumerateFrom 0 u.cells0) u.cells1
    some { u with active := next_buffer, cells1 := next }
  | 1 => do
    let next ← tickWrites u.size u.cells1 (enumerateFrom 0 u.cells1) u.cells0
    some { u with active := next_buffer, cells0 := next }
  | _ => none

/-- Universe::toggle_cell from lib.rs: compute the linear index, index the
active buffer (panicking when the selector or index is out of range), and
toggle the addressed cell in place. -/
def Universe.toggle_cell (u : Universe) (row col : Nat) : Option Universe :=
  let idx := u.size.get_index row col
  match u.active with
  | 0 =>
    if idx < u.cells0.length then
      some { u with cells0 := u.cells0.set idx (u.cells0.getD idx Cell.Dead).toggle }
    else none
  | 1 =>
    if idx < u.cells1.length then
      some { u with cells1 := u.cells1.set idx (u.cells1.getD idx Cell.Dead).toggle }
    else none
  | _ => none

/-- Glyph choice of the Display implementation in lib.rs. -/
def glyph : Cell → Char
  | Cell.Alive => '◼'
  | Cell.Dead => '◻'

/-- slice::chunks with chunk size m + 1 (the successor form keeps the
recursion well founded; the caller maps Rust's chunk size k > 0 to m = k - 1;
chunk size 0 panics in Rust and is handled at the call site). -/
def chunksOf (m : Nat) (l : List Cell) : List (List Cell) :=
  if l.isEmpty then []
  else l.take (m + 1) :: chunksOf m (l.drop (m + 1))
termination_by l.length
decreasing_by
  simp only [List.length_drop]
  cases l with
  | nil => simp [List.isEmpty] at *
  | cons a as => simp; omega

/-- The row chunking of the Display implementation in lib.rs: the cell list is
split into chunks of size `width / 8` — integer division, so a width below 8
gives chunk size 0, on which slice::chunks panics (none). -/
def renderLines (width : Nat) (cells : List Cell) : Option (List (List Cell)) :=
  match width / 8 with
  | 0 => none
  | m + 1 => some (chunksOf m cells)

/-- Universe::render from lib.rs via the Display implementation: one glyph per
cell of the active buffer, a newline after each chunk produced by
renderLines. -/
def Universe.render (u : Universe) : Option String := do
  let cells ← u.get_cells
  let lines ← renderLines u.size.width cells
  some (lines.foldl (fun acc line => acc ++ String.mk (line.map glyph) ++ "\n") "")

/-- Vec::with_capacity from universe_builder.rs: reserves capacity for n
elements but the vector's length is 0, embedded as the empty list. -/
def withCapacity (n : Nat) : List Cell :=
  let _ := n
  []

/-- The default (patterned) finalize operation of
UniverseBuilder::<ScaledUniverse> in universe_builder.rs. The source allocates
`Vec::with_capacity(width * height)` — length 0 — and then iterates
`for i in 0..cells.len()`, a bound read from the still-empty vector, writing
Alive at even indices and multiples of 7; the loop body therefore never
runs. -/
def defaultCells (width height : Nat) : List Cell :=
  let cells := withCapacity (width * height)
  (List.range cells.length).foldl
    (fun cs i => cs.set i (if i % 2 = 0 ∨ i % 7 = 0 then Cell.Alive else Cell.Dead))
    cells

/-- The empty finalize operation of UniverseBuilder::<ScaledUniverse> in
universe_builder.rs: width × height Dead cells collected from a map. -/
def emptyCells (width height : Nat) : List Cell :=
  (List.range (width * height)).map (fun _ => Cell.Dead)

/-- The random finalize operation of UniverseBuilder::<ScaledUniverse> in
universe_builder.rs: a vector of width × height Dead cells, each index then
overwritten from the random source; the source is embedded as a Boolean
oracle giving the truth of random() < 0.5 at each index. -/
def randomCells (width height : Nat) (oracle : Nat → Bool) : List Cell :=
  let cells := List.replicate (width * height) Cell.Dead
  (List.range cells.length).foldl
    (fun cs i => cs.set i (if oracle i then Cell.Alive else Cell.Dead)) cells

/-- Modelled from the spec: the finalize operations in
src/src/universe_builder.rs build the initial cell vector (randomCells,
emptyCells, defaultCells) but then construct a single-buffer record that does
not match the two-buffer Universe of lib.rs, so the assembly of the built
vector into a grid is missing from src. Per the spec, each finalize operation
"allocates the active buffer per the chosen rule and a second, all-Dead idle
buffer, and yields a Ready Grid with active selector = 0". -/
def finalize (width height : Nat) (built : List Cell) : Universe :=
  { size := { width := width, height := height }, active := 0,
    cells0 := built, cells1 := List.replicate (width * height) Cell.Dead }

/-- The patterned initializer as the specification words it: the cell at
linear index i is Alive iff i is even or i is a multiple of 7, over the full
width × height domain. -/
def spec_patterned (width height : Nat) : List Cell :=
  (List.range (width * height)).map
    (fun i => if i % 2 = 0 ∨ i % 7 = 0 then Cell.Alive else Cell.Dead)

/-- The transition rule table as the specification states it, to be fed the
cell's own neighbor count n: Alive with n < 2 dies, Alive with n = 2 or 3
survives, Alive with n > 3 dies, Dead with n = 3 becomes Alive, every other
combination is unchanged. -/
def spec_rule (s : Cell) (n : Nat) : Cell :=
  if s = Cell.Alive ∧ n < 2 then Cell.Dead
  else if s = Cell.Alive ∧ (n = 2 ∨ n = 3) then Cell.Alive
  else if s = Cell.Alive ∧ n > 3 then Cell.Dead
  else if s = Cell.Dead ∧ n = 3 then Cell.Alive
  else s

/-- A Ready grid, per the specification's invariants: positive dimensions,
selector in {0, 1}, and both buffers of length width × height. -/
def Ready (u : Universe) : Prop :=
  1 ≤ u.size.width ∧ 1 ≤ u.size.height ∧ u.active < 2 ∧
  u.cells0.length = u.size.width * u.size.height ∧
  u.cells1.length = u.size.width * u.size.height

instance (u : Universe) : Decidable (Ready u) := by
  unfold Ready; infer_instance

/-- A 4 × 4 active buffer with Alive cells at linear indices 1, 4 and 5, that
is at coordinates (0,1), (1,0) and (1,1); every other cell Dead. -/
def patL : List Cell :=
  [Cell.Dead, Cell.Alive, Cell.Dead, Cell.Dead,
   Cell.Alive, Cell.Alive, Cell.Dead, Cell.Dead,
   Cell.Dead, Cell.Dead, Cell.Dead, Cell.Dead,
   Cell.Dead, Cell.Dead, Cell.Dead, Cell.Dead]

/-- A Ready 4 × 4 grid whose active buffer is patL and whose idle buffer is
all Dead. -/
def uTickBug : Universe :=
  { size := { width := 4, height := 4 }, active := 0,
    cells0 := patL, cells1 := List.replicate 16 Cell.Dead }

/-- A Ready 2 × 2 grid with all cells Dead. -/
def uTwo : Universe :=
  { size := { width := 2, height := 2 }, active := 0,
    cells0 := List.replicate 4 Cell.Dead, cells1 := List.replicate 4 Cell.Dead }

/-- A Ready 1 × 1 grid with its single cell Dead in both buffers. -/
def uOne : Universe :=
  { size := { width := 1, height := 1 }, active := 0,
    cells0 := [Cell.Dead], cells1 := [Cell.Dead] }

/-- A grid whose active-buffer selector is the out-of-range value 2. -/
def uSelectorBad : Universe :=
  { size := { width := 1, height := 1 }, active := 2,
    cells0 := [Cell.Dead], cells1 := [Cell.Dead] }

/-! Helper lemmas shared by the claim theorems. -/

lemma Cell.toggle_toggle (c : Cell) : c.toggle.toggle = c := by
  cases c <;> rfl

lemma get_index_lt (s : Size) (r c : Nat) (hr : r < s.height) (hc : c < s.width) :
    s.get_index r c < s.width * s.height := by
  unfold Size.get_index
  have h1 : (r + 1) * s.width = r * s.width + s.width := by ring
  have h2 : (r + 1) * s.width ≤ s.height * s.width :=
    Nat.mul_le_mul_right _ hr
  have h3 : s.height * s.width = s.width * s.height := Nat.mul_comm _ _
  omega

lemma set_getD_self : ∀ (l : List Cell) (i : Nat), i < l.length →
    l.set i (l.getD i Cell.Dead) = l := by
  intro l
  induction l with
  | nil => intro i h; simp at h
  | cons a as ih =>
    intro i h
    cases i with
    | zero => simp [List.getD]
    | succ n =>
      have h' : n < as.length := by simp at h; omega
      simp [List.getD] at ih ⊢
      exact ih n h'

lemma getD_set_self : ∀ (l : List Cell) (i : Nat) (v : Cell), i < l.length →
    (l.set i v).getD i Cell.Dead = v := by
  intro l
  induction l with
  | nil => intro i v h; simp at h
  | cons a as ih =>
    intro i v h
    cases i with
    | zero => simp [List.getD]
    | succ n =>
      have h' : n < as.length := by simp at h; omega
      simp [List.getD] at ih ⊢
      exact ih n v h'

lemma take_set_succ : ∀ (l : List Cell) (k : Nat) (v : Cell), k < l.length →
    (l.set k v).take (k + 1) = l.take k ++ [v] := by
  intro l
  induction l with
  | nil => intro k v h; simp at h
  | cons a as ih =>
    intro k v h
    cases k with
    | zero => simp
    | succ n =>
      have h' : n < as.length := by simp at h; omega
      simp only [List.set_cons_succ, List.take_succ_cons]
      rw [ih n v h']
      rfl

lemma drop_set_gt : ∀ (l : List Cell) (k m : Nat) (v : Cell), k < m →
    (l.set k v).drop m = l.drop m := by
  intro l
  induction l with
  | nil => intro k m v h; simp
  | cons a as ih =>
    intro k m v h
    cases k with
    | zero =>
      cases m with
      | zero => omega
      | succ m' => simp
    | succ n =>
      cases m with
      | zero => omega
      | succ m' =>
        simp only [List.set_cons_succ, List.drop_succ_cons]
        exact ih n m' v (by omega)

lemma tickWrites_enum (size : Size) (snap : List Cell) :
    ∀ (l : List Cell) (k : Nat) (next : List Cell), k + l.length ≤ next.length →
    tickWrites size snap (enumerateFrom k l) next =
      some (next.take k
        ++ l.map (fun c => next_cell c (Universe.live_neighbor_count size snap 0 0))
        ++ next.drop (k + l.length)) := by
  intro l
  induction l with
  | nil =>
    intro k next hk
    simp [enumerateFrom, tickWrites, List.take_append_drop]
  | cons c cs ih =>
    intro k next hk
    have hklt : k < next.length := by
      simp only [List.length_cons] at hk; omega
    simp only [enumerateFrom, tickWrites, setAt, hklt, if_pos]
    rw [ih (k + 1) (next.set k (next_cell c (Universe.live_neighbor_count size snap 0 0)))
      (by simp only [List.length_set]; simp only [List.length_cons] at hk; omega)]
    rw [take_set_succ next k _ hklt,
      drop_set_gt next k (k + 1 + cs.length) _ (by omega)]
    have harith : k + 1 + cs.length = k + (c :: cs).length := by
      simp only [List.length_cons]; omega
    rw [harith]
    simp [List.append_assoc]

/-! Claim theorems. -/

/-- C1: the claim states that one tick computes each cell's next state from
its own neighbor count; the code instead passes the never-updated loop
variables row = 0, col = 0 to live_neighbor_count for every cell. On the
Ready 4 × 4 grid uTickBug, cell (3,3) (linear index 15) is Dead and its own 8
toroidal neighbors hold 0 Alive cells, so the rule table keeps it Dead; the
tick nevertheless makes it Alive, because cell (0,0)'s neighborhood holds 3
Alive cells and that count is reused for every cell. -/
theorem tick_neighbor_count_misaligned_cb :
    (Universe.tick uTickBug).map (fun v => v.cells1.getD 15 Cell.Dead) = some Cell.Alive ∧
    patL.getD 15 Cell.Dead = Cell.Dead ∧
    Universe.live_neighbor_count uTickBug.size patL 3 3 = 0 ∧
    spec_rule Cell.Dead 0 = Cell.Dead ∧
    Universe.live_neighbor_count uTickBug.size patL 0 0 = 3 := by
  decide

/-- C4: the claim states that every finalize operation yields buffers of
length width × height; the patterned finalize (defaultCells) iterates over a
bound read from its freshly allocated, still-empty vector, so on a 1 × 1 grid
the active buffer has length 0, not 1, and the resulting grid violates the
Ready length invariant. -/
theorem patterned_buffer_length_cb :
    (finalize 1 1 (defaultCells 1 1)).cells0.length = 0 ∧
    (finalize 1 1 (defaultCells 1 1)).size.width *
      (finalize 1 1 (defaultCells 1 1)).size.height = 1 ∧
    ¬ Ready (finalize 1 1 (defaultCells 1 1)) := by
  decide

/-- C5: the claim states that the patterned finalize marks the cell at linear
index i Alive iff i is even or a multiple of 7 over the full width × height
domain; the code's loop bound is the length of the empty vector, so the result
is empty and in particular the 1 × 1 grid lacks the Alive cell at index 0
that the stated rule requires. -/
theorem patterned_initializer_empty_cb :
    defaultCells 1 1 = [] ∧
    spec_patterned 1 1 = [Cell.Alive] ∧
    defaultCells 1 1 ≠ spec_patterned 1 1 := by
  decide

/-- C7: the claim states that the textual render emits a newline after every
width glyphs; the Display implementation chunks the cell list by width / 8
(integer division), so on the Ready 2 × 2 grid uTwo the chunk size is 0, on
which slice::chunks panics, and no string is produced at all — instead of the
claimed two-glyph rows. -/
theorem render_chunk_width_div8_cb :
    Ready uTwo ∧ Universe.render uTwo = none := by
  exact ⟨by decide, rfl⟩

/-- C10: a grid whose active-buffer selector is outside {0, 1} makes tick
abort: the successor-slot computation — the first statement of tick, before
any write to either buffer — already panics, and the whole tick yields no
post-state, so the grid is unchanged. -/
theorem tick_selector_guard (u : Universe) (h : 2 ≤ u.active) :
    ticknext_buffer u = none ∧ u.tick = none := by
  have h1 : ticknext_buffer u = none := by
    unfold ticknext_buffer
    have hx : ¬ u.active < 2 - 1 := by omega
    have hy : ¬ u.active = 2 - 1 := by omega
    simp [hx, hy]
  refine ⟨h1, ?_⟩
  unfold Universe.tick
  rw [h1]
  rfl

/-- Witness for C10 at the concrete grid uSelectorBad with selector 2. -/
theorem tick_selector_guard_witness :
    2 ≤ uSelectorBad.active ∧
    (ticknext_buffer uSelectorBad = none ∧ uSelectorBad.tick = none) :=
  ⟨by decide, tick_selector_guard uSelectorBad (by decide)⟩

/-- C2: the 8-neighborhood used by neighbor counting is toroidal: in the
neighbor list of a cell in row 0 the north entry (position 1, same column) is
(height - 1, column); in row height - 1 the south entry (position 6, same
column) is (0, column); in column 0 the west entry (position 3, same row) is
(row, width - 1); and in column width - 1 the east entry (position 4, same
row) is (row, 0). -/
theorem neighbor_wrap_toroidal (s : Size) (row col : Nat)
    (hw : 1 ≤ s.width) (hh : 1 ≤ s.height) :
    (neighbor_coordinates s 0 col)[1]? = some (s.height - 1, col) ∧
    (neighbor_coordinates s (s.height - 1) col)[6]? = some (0, col) ∧
    (neighbor_coordinates s row 0)[3]? = some (row, s.width - 1) ∧
    (neighbor_coordinates s row (s.width - 1))[4]? = some (row, 0) := by
  unfold neighbor_coordinates
  simp

/-- Witness for C2 on the 3 × 3 grid at row 2, column 1. -/
theorem neighbor_wrap_toroidal_witness :
    (neighbor_coordinates ⟨3, 3⟩ 0 1)[1]? = some (2, 1) ∧
    (neighbor_coordinates ⟨3, 3⟩ 2 1)[6]? = some (0, 1) ∧
    (neighbor_coordinates ⟨3, 3⟩ 2 0)[3]? = some (2, 2) ∧
    (neighbor_coordinates ⟨3, 3⟩ 2 2)[4]? = some (2, 0) :=
  neighbor_wrap_toroidal ⟨3, 3⟩ 2 1 (by decide) (by decide)

/-- C8: for positive dimensions and an in-bounds cell (row, column), every one
of the 8 linear indices that neighbor counting computes — toroidal wrap
followed by row * width + column — is strictly below width × height, so the
unchecked buffer read in live_neighbor_count stays inside a buffer of that
length. -/
theorem neighbor_indices_in_bounds (s : Size) (row col : Nat)
    (hw : 1 ≤ s.width) (hh : 1 ≤ s.height)
    (hr : row < s.height) (hc : col < s.width) :
    ∀ p ∈ neighbor_coordinates s row col,
      s.get_index p.1 p.2 < s.width * s.height := by
  have hn : (if row = 0 then s.height - 1 else row - 1) < s.height := by
    split <;> omega
  have hs : (if row = s.height - 1 then 0 else row + 1) < s.height := by
    split <;> omega
  have hwst : (if col = 0 then s.width - 1 else col - 1) < s.width := by
    split <;> omega
  have hei : (if col = s.width - 1 then 0 else col + 1) < s.width := by
    split <;> omega
  intro p hp
  unfold neighbor_coordinates at hp
  simp only [List.mem_cons, List.not_mem_nil, or_false] at hp
  rcases hp with h | h | h | h | h | h | h | h <;>
    (subst h; exact get_index_lt s _ _ (by assumption) (by assumption))

/-- Witness for C8: the neighbor pair (1, 1) of cell (0, 0) on a 2 × 2 grid
resolves to linear index 3 < 4. -/
theorem neighbor_indices_in_bounds_witness :
    Size.get_index ⟨2, 2⟩ 1 1 < 2 * 2 :=
  neighbor_indices_in_bounds ⟨2, 2⟩ 0 0 (by decide) (by decide) (by decide) (by decide)
    (1, 1) (by decide)

/-- C9: on a Ready grid, toggling an in-bounds cell twice in succession
restores exactly the original grid: toggle is an involution. -/
theorem toggle_involution (u : Universe) (row col : Nat) (h : Ready u)
    (hr : row < u.size.height) (hc : col < u.size.width) :
    (u.toggle_cell row col).bind (fun v => v.toggle_cell row col) = some u := by
  obtain ⟨hw1, hh1, hact, hl0, hl1⟩ := h
  have hidx : u.size.get_index row col < u.size.width * u.size.height :=
    get_index_lt u.size row col hr hc
  have h01 : u.active = 0 ∨ u.active = 1 := by omega
  rcases h01 with h2 | h2
  · have hlt : u.size.get_index row col < u.cells0.length := by omega
    have e1 : u.toggle_cell row col =
        some { u with
          cells0 := u.cells0.set (u.size.get_index row col)
            (u.cells0.getD (u.size.get_index row col) Cell.Dead).toggle } := by
      simp only [Universe.toggle_cell, h2, hlt, if_pos]
    rw [e1, Option.some_bind]
    simp only [Universe.toggle_cell, h2, List.length_set, hlt, if_pos]
    rw [getD_set_self u.cells0 _ _ hlt, List.set_set, Cell.toggle_toggle,
      set_getD_self u.cells0 _ hlt, ← h2]
  · have hlt : u.size.get_index row col < u.cells1.length := by omega
    have e1 : u.toggle_cell row col =
        some { u with
          cells1 := u.cells1.set (u.size.get_index row col)
            (u.cells1.getD (u.size.get_index row col) Cell.Dead).toggle } := by
      simp only [Universe.toggle_cell, h2, hlt, if_pos]
    rw [e1, Option.some_bind]
    simp only [Universe.toggle_cell, h2, List.length_set, hlt, if_pos]
    rw [getD_set_self u.cells1 _ _ hlt, List.set_set, Cell.toggle_toggle,
      set_getD_self u.cells1 _ hlt, ← h2]

/-- Witness for C9 on the Ready 2 × 2 grid uTwo at cell (1, 1). -/
theorem toggle_involution_witness :
    (uTwo.toggle_cell 1 1).bind (fun v => v.toggle_cell 1 1) = some uTwo :=
  toggle_involution uTwo 1 1 (by decide) (by decide) (by decide)

/-- C6 counterexample: on the Ready 2 × 2 grid uTwo, the call
toggle(0, 2) has column 2 ≥ width 2, so the claim says it must fail with an
IndexError and leave the grid unchanged; instead the linear index
0 * 2 + 2 = 2 is still inside the 4-cell buffer, the call succeeds, and it
flips cell (1, 0) — a different cell than the one addressed. -/
theorem toggle_out_of_bounds_cx :
    uTwo.size.width ≤ 2 ∧
    uTwo.toggle_cell 0 2 =
      some { size := { width := 2, height := 2 }, active := 0,
             cells0 := [Cell.Dead, Cell.Dead, Cell.Alive, Cell.Dead],
             cells1 := List.replicate 4 Cell.Dead } ∧
    uTwo.toggle_cell 0 2 ≠ some uTwo := by
  decide

/-- C6 amended: on a Ready grid, toggle(row, column) fails with an IndexError
— with no post-state, so every cell is unchanged — exactly when the linear
index row * width + column reaches width × height (which covers every row ≥
height, but not every column ≥ width); when that index is in range the call
flips exactly the cell at that linear index of the active buffer, leaving the
other buffer untouched — for in-bounds (row, column) that is the addressed
cell. -/
theorem toggle_amended (u : Universe) (row col : Nat) (h : Ready u) :
    (u.size.get_index row col < u.size.width * u.size.height →
      ∃ v, u.toggle_cell row col = some v ∧
        v.size = u.size ∧ v.active = u.active ∧
        v.bufferAt u.active =
          (u.bufferAt u.active).set (u.size.get_index row col)
            ((u.bufferAt u.active).getD (u.size.get_index row col) Cell.Dead).toggle ∧
        v.bufferAt (1 - u.active) = u.bufferAt (1 - u.active)) ∧
    (u.size.width * u.size.height ≤ u.size.get_index row col →
      u.toggle_cell row col = none) := by
  obtain ⟨hw1, hh1, hact, hl0, hl1⟩ := h
  have h01 : u.active = 0 ∨ u.active = 1 := by omega
  rcases h01 with h2 | h2
  · constructor
    · intro hidx
      have hlt : u.size.get_index row col < u.cells0.length := by omega
      refine ⟨{ u with
          cells0 := u.cells0.set (u.size.get_index row col)
            (u.cells0.getD (u.size.get_index row col) Cell.Dead).toggle },
        ?_, rfl, rfl, ?_, ?_⟩
      · simp only [Universe.toggle_cell, h2, hlt, if_pos]
      · simp [Universe.bufferAt, h2]
      · simp [Universe.bufferAt, h2]
    · intro hidx
      have hge : ¬ u.size.get_index row col < u.cells0.length := by omega
      simp only [Universe.toggle_cell, h2, hge, if_false]
  · constructor
    · intro hidx
      have hlt : u.size.get_index row col < u.cells1.length := by omega
      refine ⟨{ u with
          cells1 := u.cells1.set (u.size.get_index row col)
            (u.cells1.getD (u.size.get_index row col) Cell.Dead).toggle },
        ?_, rfl, rfl, ?_, ?_⟩
      · simp only [Universe.toggle_cell, h2, hlt, if_pos]
      · simp [Universe.bufferAt, h2]
      · simp [Universe.bufferAt, h2]
    · intro hidx
      have hge : ¬ u.size.get_index row col < u.cells1.length := by omega
      simp only [Universe.toggle_cell, h2, hge, if_false]

/-- Witness for the amended C6 on uTwo at cell (0, 1). -/
theorem toggle_amended_witness :
    (Size.get_index uTwo.size 0 1 < uTwo.size.width * uTwo.size.height →
      ∃ v, uTwo.toggle_cell 0 1 = some v ∧
        v.size = uTwo.size ∧ v.active = uTwo.active ∧
        v.bufferAt uTwo.active =
          (uTwo.bufferAt uTwo.active).set (Size.get_index uTwo.size 0 1)
            ((uTwo.bufferAt uTwo.active).getD (Size.get_index uTwo.size 0 1) Cell.Dead).toggle ∧
        v.bufferAt (1 - uTwo.active) = uTwo.bufferAt (1 - uTwo.active)) ∧
    (uTwo.size.width * uTwo.size.height ≤ Size.get_index uTwo.size 0 1 →
      uTwo.toggle_cell 0 1 = none) :=
  toggle_amended uTwo 0 1 (by decide)

/-- C3: on a Ready grid, tick produces a post-state in which the roles swap
(the new active selector is 1 minus the old), the buffer that was active is
byte-for-byte unchanged and now serves as the idle buffer, the new active
buffer is a pure function of the pre-tick active snapshot alone (each written
cell is the transition of the visited cell under the count the code computes
from that snapshot), and both buffers keep their lengths, so nothing is
reallocated. -/
theorem tick_double_buffer_discipline (u : Universe) (h : Ready u) :
    ∃ v, u.tick = some v ∧
      v.active = 1 - u.active ∧
      v.bufferAt u.active = u.bufferAt u.active ∧
      v.bufferAt v.active =
        (u.bufferAt u.active).map
          (fun c => next_cell c
            (Universe.live_neighbor_count u.size (u.bufferAt u.active) 0 0)) ∧
      v.cells0.length = u.cells0.length ∧ v.cells1.length = u.cells1.length := by
  obtain ⟨hw1, hh1, hact, hl0, hl1⟩ := h
  have h01 : u.active = 0 ∨ u.active = 1 := by omega
  rcases h01 with h2 | h2
  · have hnb : ticknext_buffer u = some 1 := by
      unfold ticknext_buffer; simp [h2]
    have hwr := tickWrites_enum u.size u.cells0 u.cells0 0 u.cells1 (by omega)
    simp only [Nat.zero_add, List.take_zero, List.nil_append] at hwr
    rw [List.drop_of_length_le (by omega), List.append_nil] at hwr
    have htick : u.tick =
        some { u with
          active := 1
          cells1 := u.cells0.map
            (fun c => next_cell c (Universe.live_neighbor_count u.size u.cells0 0 0)) } := by
      simp only [Universe.tick, hnb, Option.some_bind, h2]
      rw [hwr]
      rfl
    refine ⟨_, htick, ?_, ?_, ?_, ?_, ?_⟩
    · simp [h2]
    · simp [Universe.bufferAt, h2]
    · simp [Universe.bufferAt, h2]
    · simp
    · simp [List.length_map, hl0, hl1]
  · have hnb : ticknext_buffer u = some 0 := by
      unfold ticknext_buffer; simp [h2]
    have hwr := tickWrites_enum u.size u.cells1 u.cells1 0 u.cells0 (by omega)
    simp only [Nat.zero_add, List.take_zero, List.nil_append] at hwr
    rw [List.drop_of_length_le (by omega), List.append_nil] at hwr
    have htick : u.tick =
        some { u with
          active := 0
          cells0 := u.cells1.map
            (fun c => next_cell c (Universe.live_neighbor_count u.size u.cells1 0 0)) } := by
      simp only [Universe.tick, hnb, Option.some_bind, h2]
      rw [hwr]
      rfl
    refine ⟨_, htick, ?_, ?_, ?_, ?_, ?_⟩
    · simp [h2]
    · simp [Universe.bufferAt, h2]
    · simp [Universe.bufferAt, h2]
    · simp [List.length_map, hl0, hl1]
    · simp

/-- Witness for C3 on the Ready 1 × 1 grid uOne. -/
theorem tick_double_buffer_discipline_witness :
    Ready uOne ∧
    (∃ v, uOne.tick = some v ∧
      v.active = 1 - uOne.active ∧
      v.bufferAt uOne.active = uOne.bufferAt uOne.active ∧
      v.bufferAt v.active =
        (uOne.bufferAt uOne.active).map
          (fun c => next_cell c
            (Universe.live_neighbor_count uOne.size (uOne.bufferAt uOne.active) 0 0)) ∧
      v.cells0.length = uOne.cells0.length ∧ v.cells1.length = uOne.cells1.length) :=
  ⟨by decide, tick_double_buffer_discipline uOne (by decide)⟩

end GameOfLife
